import Mathlib

/-!
Shallow embedding of the smart traffic light system
(`trial_controller.py`, `controller.py`, `trial_zookeeper.py`).

Signal states, VIP priority queues, the drain loop, the Berkeley clock
synchronization step, and the load-balancer routing layer are translated into
executable Lean definitions; remote calls (pedestrian votes, peer clocks,
backend forwarding) are modelled by explicit parameters giving each call's
outcome.  Clock synchronization mutates only `server_skew`, so it is modelled
by its own function and the controller state carries the VIP queues and the
signal table.
-/

namespace SmartTraffic

/-- Signal colour values, from the status strings used in the source
(`"RED"`, `"YELLOW"`, `"GREEN"`, `"BLINKING RED"`). -/
inductive Status where
  | red
  | yellow
  | green
  | blinkingRed
deriving DecidableEq, Repr, Fintype

/-- Identifiers of the eight signals: vehicle signals `1..4` and pedestrian
signals `"P1".."P4"`. -/
inductive SigId where
  | s1
  | s2
  | s3
  | s4
  | ps1
  | ps2
  | ps3
  | ps4
deriving DecidableEq, Repr, Fintype

/-- A direction pair, `[1,2]` or `[3,4]`. -/
inductive Pair where
  | p12
  | p34
deriving DecidableEq, Repr, Fintype

/-- The opposite direction pair (`[3,4] if target_pair == [1,2] else [1,2]`). -/
def Pair.other : Pair → Pair
  | .p12 => .p34
  | .p34 => .p12

/-- The two vehicle signals of a pair. -/
def Pair.vehicles : Pair → List SigId
  | .p12 => [.s1, .s2]
  | .p34 => [.s3, .s4]

/-- The two pedestrian signals of a pair. -/
def Pair.peds : Pair → List SigId
  | .p12 => [.ps1, .ps2]
  | .p34 => [.ps3, .ps4]

/-- The `signal_status` dictionary: one colour per signal identifier. -/
structure SignalStatus where
  v1 : Status
  v2 : Status
  v3 : Status
  v4 : Status
  p1 : Status
  p2 : Status
  p3 : Status
  p4 : Status
deriving DecidableEq, Repr

/-- Write `signal_status[sig] = c` as a state update. -/
def setSig (st : SignalStatus) : SigId → Status → SignalStatus
  | .s1, c => { st with v1 := c }
  | .s2, c => { st with v2 := c }
  | .s3, c => { st with v3 := c }
  | .s4, c => { st with v4 := c }
  | .ps1, c => { st with p1 := c }
  | .ps2, c => { st with p2 := c }
  | .ps3, c => { st with p3 := c }
  | .ps4, c => { st with p4 := c }

/-- Startup value of `signal_status`:
`{1: RED, 2: RED, 3: GREEN, 4: GREEN, P1: GREEN, P2: GREEN, P3: RED, P4: RED}`. -/
def initial_signal_status : SignalStatus :=
  ⟨.red, .red, .green, .green, .green, .green, .red, .red⟩

/-- Model of `_current_green_pair`: `[1,2]` when signals 1 and 2 are both green,
otherwise `[3,4]`. -/
def current_green_pair (st : SignalStatus) : Pair :=
  if st.v1 = .green ∧ st.v2 = .green then .p12 else .p34

/-- Apply a sequence of single-signal writes in order. -/
def applyWrites (st : SignalStatus) (ws : List (SigId × Status)) : SignalStatus :=
  ws.foldl (fun s w => setSig s w.1 w.2) st

/-- The write trace of `handle_pedestrian_signals(target_pair)`: the target
pair's pedestrians blink red (five loop iterations) then go red; the other
pair's pedestrians go yellow then green. -/
def handle_pedestrian_writes (target : Pair) : List (SigId × Status) :=
  (List.replicate 5 (target.peds.map (fun sig => (sig, Status.blinkingRed)))).flatten
    ++ target.peds.map (fun sig => (sig, Status.red))
    ++ target.other.peds.map (fun sig => (sig, Status.yellow))
    ++ target.other.peds.map (fun sig => (sig, Status.green))

/-- The write trace of `handle_traffic_signals(target_pair)`: the opposite
pair goes yellow then red, then the target pair goes green. -/
def handle_traffic_writes (target : Pair) : List (SigId × Status) :=
  target.other.vehicles.map (fun sig => (sig, Status.yellow))
    ++ target.other.vehicles.map (fun sig => (sig, Status.red))
    ++ target.vehicles.map (fun sig => (sig, Status.green))

/-- The write trace of `_switch_to(target_pair)`: pedestrian phase then
traffic phase. -/
def switch_to_writes (target : Pair) : List (SigId × Status) :=
  handle_pedestrian_writes target ++ handle_traffic_writes target

/-- The function `handle_pedestrian_signals` as a state transformer. -/
def handle_pedestrian_signals (target : Pair) (st : SignalStatus) : SignalStatus :=
  applyWrites st (handle_pedestrian_writes target)

/-- The function `handle_traffic_signals` as a state transformer. -/
def handle_traffic_signals (target : Pair) (st : SignalStatus) : SignalStatus :=
  applyWrites st (handle_traffic_writes target)

/-- Model of `_switch_to(target_pair)`: full pedestrian + traffic transition. -/
def switch_to (target : Pair) (st : SignalStatus) : SignalStatus :=
  handle_traffic_signals target (handle_pedestrian_signals target st)

/-- The quiescent state with `target` green, its complement red, and the
complementary pedestrian states. -/
def green_state : Pair → SignalStatus
  | .p12 => ⟨.green, .green, .red, .red, .red, .red, .green, .green⟩
  | .p34 => ⟨.red, .red, .green, .green, .green, .green, .red, .red⟩

/-- The `VIPRequest` dataclass.  `arrival_time` is the corrected epoch
timestamp (a float in the source, embedded as a rational). -/
structure VIPRequest where
  vehicle_id : String
  priority : Nat
  arrival_time : ℚ
  target_pair : Pair
deriving DecidableEq, Repr

/-- Comparison `VIPRequest.__lt__`: priorities differ → smaller priority number first;
equal priorities → earlier arrival time first. -/
def VIPRequest.ltb (a b : VIPRequest) : Bool :=
  if a.priority ≠ b.priority then decide (a.priority < b.priority)
  else decide (a.arrival_time < b.arrival_time)

/-- The non-strict total preorder induced by `VIPRequest.__lt__`; a Python
`list.sort()` leaves the list sorted by this relation. -/
def vipLe (a b : VIPRequest) : Bool :=
  ! VIPRequest.ltb b a

/-- Controller state relevant to arbitration: the two per-direction VIP
queues (`vip_queues["12"]`, `vip_queues["34"]`) and the signal table. -/
structure CtrlState where
  q12 : List VIPRequest
  q34 : List VIPRequest
  sig : SignalStatus
deriving DecidableEq, Repr

/-- The queue a request's target pair maps to (`key = "12" if target_pair ==
[1,2] else "34"`). -/
def queueOf (p : Pair) (st : CtrlState) : List VIPRequest :=
  match p with
  | .p12 => st.q12
  | .p34 => st.q34

/-- The enqueue step of `vip_arrival`: append the request to its pair's queue
and re-sort the queue (`vip_queues[key].append(vip_req); vip_queues[key].sort()`).
Python's stable sort by `__lt__` is modelled by `List.mergeSort` with `vipLe`. -/
def vip_register (req : VIPRequest) (st : CtrlState) : CtrlState :=
  match req.target_pair with
  | .p12 => { st with q12 := List.mergeSort (st.q12 ++ [req]) vipLe }
  | .p34 => { st with q34 := List.mergeSort (st.q34 ++ [req]) vipLe }

/-- The body of `_serve_next_vip` after the head request was popped: if the
pedestrian vote was denied, nothing further happens; if granted, the signals
are switched to the request's pair only when the current green pair differs. -/
def servePopped (granted : Bool) (pair : Pair) (sig : SignalStatus) : SignalStatus :=
  if granted then
    if current_green_pair sig ≠ pair then switch_to pair sig else sig
  else sig

/-- Model of `_serve_next_vip(pair)`: pop the head of the pair's queue (no-op when the
queue is empty), then obtain the pedestrian vote (`ack pair`) and transition
on grant.  A denied request has already been popped and is not re-queued. -/
def serve_next_vip (ack : Pair → Bool) (pair : Pair) (st : CtrlState) : CtrlState :=
  match pair with
  | .p12 =>
    match st.q12 with
    | [] => st
    | _ :: rest => { st with q12 := rest, sig := servePopped (ack .p12) .p12 st.sig }
  | .p34 =>
    match st.q34 with
    | [] => st
    | _ :: rest => { st with q34 := rest, sig := servePopped (ack .p34) .p34 st.sig }

/-- The drain loop of `_process_vip_requests`, with the pop of
`_serve_next_vip` inlined (the loop only ever calls it on a non-empty queue).
Besides the final state it returns the ghost list of requests in the order
they were served.  Both queues non-empty is the deadlock case: the heads are
compared by `__lt__` and the winner's pair is served. -/
def process_vip_go (ack : Pair → Bool) :
    List VIPRequest → List VIPRequest → SignalStatus → CtrlState × List VIPRequest
  | [], [], s => (⟨[], [], s⟩, [])
  | a :: r12, [], s =>
    let out := process_vip_go ack r12 [] (servePopped (ack .p12) .p12 s)
    (out.1, a :: out.2)
  | [], b :: r34, s =>
    let out := process_vip_go ack [] r34 (servePopped (ack .p34) .p34 s)
    (out.1, b :: out.2)
  | a :: r12, b :: r34, s =>
    if VIPRequest.ltb a b then
      let out := process_vip_go ack r12 (b :: r34) (servePopped (ack .p12) .p12 s)
      (out.1, a :: out.2)
    else
      let out := process_vip_go ack (a :: r12) r34 (servePopped (ack .p34) .p34 s)
      (out.1, b :: out.2)
termination_by q12 q34 _ => q12.length + q34.length

/-- Model of `_process_vip_requests`: drain both VIP queues to completion. -/
def process_vip_requests (ack : Pair → Bool) (st : CtrlState) : CtrlState × List VIPRequest :=
  process_vip_go ack st.q12 st.q34 st.sig

/-- The state `signal_controller` is in when it reaches its own pedestrian
vote and transition: if any VIP is queued the queues were drained first,
otherwise the state is untouched. -/
def normal_pre (ack : Pair → Bool) (st : CtrlState) : CtrlState :=
  if st.q12.length + st.q34.length > 0 then (process_vip_requests ack st).1 else st

/-- Model of `signal_controller(target_pair)` of `trial_controller.py` (normal
traffic).  `ack` gives the pedestrian vote outcomes used while draining VIPs;
`grant` is the outcome of the request's own `_get_pedestrian_ack` call: on
denial the function returns `false` without transitioning, on grant it runs
`_switch_to(target_pair)` and returns `true`.  The initial
`berkeley_cycle_once()` call touches only `server_skew` and is modelled by
`berkeley_cycle_once` below. -/
def signal_controller (ack : Pair → Bool) (grant : Bool) (target : Pair)
    (st : CtrlState) : CtrlState × Bool :=
  let st1 := normal_pre ack st
  if grant then ({ st1 with sig := switch_to target st1.sig }, true)
  else (st1, false)

/-- Model of `vip_arrival(target_pair, priority, vehicle_id)`: build the `VIPRequest`
(with `arrival_time` the post-sync server time, passed in here), insert it
into its pair's queue keeping the queue sorted, then run
`_process_vip_requests`; the function always returns `True`. -/
def vip_arrival (ack : Pair → Bool) (target : Pair) (priority : Nat)
    (arrivalTime : ℚ) (vehicleId : String) (st : CtrlState) : CtrlState × Bool :=
  let req : VIPRequest := ⟨vehicleId, priority, arrivalTime, target⟩
  let st1 := vip_register req st
  ((process_vip_requests ack st1).1, true)

/-- The `clock_values` dictionary of `berkeley_cycle_once`, built from the
peers' responses: the coordinator's own zero offset plus one entry per peer
whose `get_clock_value` call succeeded (`none` models a timeout/failure). -/
def berkeley_collect (responses : List (String × Option ℚ)) : List (String × ℚ) :=
  ("controller", 0) :: responses.filterMap (fun nr => nr.2.map (fun v => (nr.1, v)))

/-- Model of `berkeley_cycle_once` of `trial_controller.py`.  Input: each configured
peer's response (name, offset or failure), the current server time and the
accumulated skew.  Output: the new skew and the names pushed a `set_time`
update.  With no responding peer (`len(clock_values) <= 1`) the cycle returns
early and nothing changes; otherwise `avg_offset = sum/len` over the collected
offsets, `new_epoch = server_time + avg_offset`, the update is pushed to the
successful peers only, and `server_skew += new_epoch - server_time`. -/
def berkeley_cycle_once (responses : List (String × Option ℚ))
    (serverTime skew : ℚ) : ℚ × List String :=
  let clock_values := berkeley_collect responses
  if clock_values.length ≤ 1 then (skew, [])
  else
    let avg_offset := (clock_values.map Prod.snd).sum / clock_values.length
    let new_epoch := serverTime + avg_offset
    let successful := responses.filterMap (fun nr => nr.2.map (fun _ => nr.1))
    (skew + (new_epoch - serverTime), successful)

/-- Model of `berkeley_cycle_once` of `controller.py` (the earlier variant): the early
return fires only when `clock_values` is empty, which cannot happen since the
coordinator's zero offset is always present, and the `set_time` push goes to
every configured peer, responding or not.  The average and the skew update
are computed exactly as in the trial variant. -/
def berkeley_cycle_once_v0 (responses : List (String × Option ℚ))
    (serverTime skew : ℚ) : ℚ × List String :=
  let clock_values := berkeley_collect responses
  if clock_values.length = 0 then (skew, [])
  else
    let avg_offset := (clock_values.map Prod.snd).sum / clock_values.length
    let new_epoch := serverTime + avg_offset
    (skew + (new_epoch - serverTime), responses.map Prod.fst)

/-! Load balancer (`trial_zookeeper.py`). -/

/-- Constant `BUFFER_SIZE`: per-instance bound on in-flight requests. -/
def BUFFER_SIZE : Nat := 5

/-- Constant `MAX_DYNAMIC_CLONES`: maximum number of additional dynamic instances. -/
def MAX_DYNAMIC_CLONES : Nat := 3

/-- The `ControllerState` class: one backend controller instance tracked by
the load balancer.  `active_requests` is a `deque(maxlen=BUFFER_SIZE)` of
in-flight request ids. -/
structure ControllerState where
  name : String
  url : String
  active_requests : List String
  is_available : Bool
  total_processed : Nat
  is_dynamic : Bool
deriving DecidableEq, Repr

/-- Predicate `ControllerState.is_free`: below the buffer bound and available. -/
def ControllerState.is_free (c : ControllerState) : Bool :=
  decide (c.active_requests.length < BUFFER_SIZE) && c.is_available

/-- Model of `ControllerState.add_request`: append the id to the deque; a full
`deque(maxlen=BUFFER_SIZE)` silently evicts its oldest entry. -/
def ControllerState.add_request (rid : String) (c : ControllerState) : ControllerState :=
  if c.active_requests.length < BUFFER_SIZE then
    { c with active_requests := c.active_requests ++ [rid] }
  else
    { c with active_requests := c.active_requests.drop 1 ++ [rid] }

/-- Model of `ControllerState.complete_request`: remove the first occurrence of the id
and count the request as processed; an absent id (`ValueError`) is silently
ignored. -/
def ControllerState.complete_request (rid : String) (c : ControllerState) : ControllerState :=
  if rid ∈ c.active_requests then
    { c with active_requests := c.active_requests.erase rid,
             total_processed := c.total_processed + 1 }
  else c

/-- Python's `min(l, key=k)`: the first element of `l` attaining the minimal
key (`none` on an empty list, where Python raises). -/
def minBy (k : α → Nat) : List α → Option α
  | [] => none
  | x :: xs => some (xs.foldl (fun best y => if k y < k best then y else best) x)

/-- Model of `DynamicCloneManager.create_dynamic_clone`: refuse beyond
`MAX_DYNAMIC_CLONES`; otherwise spawning and the ping check may fail
(`spawnOk`), and on success a fresh dynamic instance is returned together
with the incremented clone counter. -/
def create_dynamic_clone (numClones : Nat) (spawnOk : Bool) :
    Option (ControllerState × Nat) :=
  if MAX_DYNAMIC_CLONES ≤ numClones then none
  else if spawnOk then
    some (⟨"dynamic_clone_" ++ toString (numClones + 1),
           "http://localhost:" ++ toString (8002 + numClones + 1),
           [], true, 0, true⟩, numClones + 1)
  else none

/-- Model of `ZooKeeperLoadBalancer.get_available_controller`: four selection tiers.
First the completely free available instances (fewest `total_processed`
wins), then the available instances with buffer space (least loaded wins),
then dynamic-clone creation, and finally the least-loaded instance over all
instances regardless of availability or saturation.  Returns the chosen
instance, the updated instance list and the updated clone counter (`none`
only for an empty instance list, where Python's `min` would raise). -/
def get_available_controller (ctrls : List ControllerState) (numClones : Nat)
    (spawnOk : Bool) : Option (ControllerState × List ControllerState × Nat) :=
  let free := ctrls.filter (fun c => c.is_free && decide (c.active_requests.length = 0))
  match minBy (fun c => c.total_processed) free with
  | some c => some (c, ctrls, numClones)
  | none =>
    let available := ctrls.filter (fun c => c.is_free)
    match minBy (fun c => c.active_requests.length) available with
    | some c => some (c, ctrls, numClones)
    | none =>
      match create_dynamic_clone numClones spawnOk with
      | some (nc, n1) => some (nc, ctrls ++ [nc], n1)
      | none =>
        (minBy (fun c => c.active_requests.length) ctrls).map
          (fun c => (c, ctrls, numClones))

/-- Load-balancer state: the tracked instances and the dynamic-clone count. -/
structure LBState where
  controllers : List ControllerState
  numClones : Nat
deriving DecidableEq, Repr

/-- Update the instance with the given name in place. -/
def update_ctrl (nm : String) (f : ControllerState → ControllerState)
    (l : List ControllerState) : List ControllerState :=
  l.map (fun c => if c.name = nm then f c else c)

/-- The failure branch of `forward_request`: release the claimed slot
(`complete_request`) and mark the instance unavailable. -/
def fail_update (rid : String) (c : ControllerState) : ControllerState :=
  { c.complete_request rid with is_available := false }

/-- Model of `ZooKeeperLoadBalancer.forward_request`: pick an instance, claim a slot,
forward the call (`oracle` gives each backend's success by name), release the
slot on completion; on failure release the slot, mark the instance
unavailable and recurse.  The Python recursion has no explicit bound and is
cut off only by the interpreter's recursion limit, modelled by `fuel`; each
retry draws a fresh request id (`ridOf fuel`). -/
def forward_request (oracle : String → Bool) (spawnOk : Bool) (ridOf : Nat → String) :
    Nat → LBState → LBState × Bool
  | 0, st => (st, false)
  | fuel + 1, st =>
    match get_available_controller st.controllers st.numClones spawnOk with
    | none => (st, false)
    | some (c, ctrls1, n1) =>
      let rid := ridOf (fuel + 1)
      let ctrls2 := update_ctrl c.name (ControllerState.add_request rid) ctrls1
      if oracle c.name then
        (⟨update_ctrl c.name (ControllerState.complete_request rid) ctrls2, n1⟩, true)
      else
        forward_request oracle spawnOk ridOf fuel
          ⟨update_ctrl c.name (fail_update rid) ctrls2, n1⟩

/-- One buffer operation on a `ControllerState`. -/
inductive BufferOp where
  | add (rid : String)
  | complete (rid : String)
deriving DecidableEq, Repr

/-- Apply one buffer operation. -/
def apply_op (c : ControllerState) : BufferOp → ControllerState
  | .add rid => c.add_request rid
  | .complete rid => c.complete_request rid

/-- Apply a sequence of buffer operations in order. -/
def run_ops (ops : List BufferOp) (c : ControllerState) : ControllerState :=
  ops.foldl apply_op c

/-! Helper lemmas. -/

theorem vipLtb_iff (a b : VIPRequest) :
    VIPRequest.ltb a b = true ↔
      a.priority < b.priority ∨ (a.priority = b.priority ∧ a.arrival_time < b.arrival_time) := by
  unfold VIPRequest.ltb
  by_cases h : a.priority = b.priority <;> simp [h]

theorem vipLtb_eq_false_iff (a b : VIPRequest) :
    VIPRequest.ltb a b = false ↔
      b.priority < a.priority ∨ (a.priority = b.priority ∧ b.arrival_time ≤ a.arrival_time) := by
  rw [← Bool.not_eq_true, vipLtb_iff]
  constructor
  · intro h
    push_neg at h
    obtain ⟨h1, h2⟩ := h
    rcases Nat.lt_or_ge b.priority a.priority with hlt | hge
    · exact Or.inl hlt
    · have he : a.priority = b.priority := by omega
      exact Or.inr ⟨he, h2 he⟩
  · intro h
    push_neg
    rcases h with h | ⟨e, hle⟩
    · exact ⟨by omega, fun e2 => absurd e2 (by omega)⟩
    · exact ⟨by omega, fun _ => hle⟩

theorem vipLe_eq_true_iff (a b : VIPRequest) :
    vipLe a b = true ↔
      a.priority < b.priority ∨ (b.priority = a.priority ∧ a.arrival_time ≤ b.arrival_time) := by
  simp only [vipLe, Bool.not_eq_true']
  exact vipLtb_eq_false_iff b a

theorem vipLe_total (a b : VIPRequest) : vipLe a b || vipLe b a := by
  rw [Bool.or_eq_true, vipLe_eq_true_iff, vipLe_eq_true_iff]
  rcases Nat.lt_trichotomy a.priority b.priority with h | h | h
  · exact Or.inl (Or.inl h)
  · rcases le_total a.arrival_time b.arrival_time with ht | ht
    · exact Or.inl (Or.inr ⟨h.symm, ht⟩)
    · exact Or.inr (Or.inr ⟨h, ht⟩)
  · exact Or.inr (Or.inl h)

theorem vipLe_trans (a b c : VIPRequest) :
    vipLe a b → vipLe b c → vipLe a c := by
  rw [vipLe_eq_true_iff, vipLe_eq_true_iff, vipLe_eq_true_iff]
  intro h1 h2
  rcases h1 with h1 | ⟨e1, t1⟩ <;> rcases h2 with h2 | ⟨e2, t2⟩
  · exact Or.inl (by omega)
  · exact Or.inl (by omega)
  · exact Or.inl (by omega)
  · exact Or.inr ⟨by omega, le_trans t1 t2⟩

theorem process_vip_go_queues_empty (ack : Pair → Bool) (q12 q34 : List VIPRequest)
    (s : SignalStatus) :
    (process_vip_go ack q12 q34 s).1.q12 = [] ∧ (process_vip_go ack q12 q34 s).1.q34 = [] := by
  induction q12, q34, s using process_vip_go.induct ack <;>
    simp_all [process_vip_go]

theorem process_vip_go_served_merge (ack : Pair → Bool) (q12 q34 : List VIPRequest)
    (s : SignalStatus) :
    (process_vip_go ack q12 q34 s).2 = List.merge q12 q34 VIPRequest.ltb := by
  induction q12, q34, s using process_vip_go.induct ack <;>
    simp_all [process_vip_go, List.merge]

/-- C1: the drain loop of `_process_vip_requests` repeats until both VIP
queues are empty; whenever both queues are non-empty it compares the head
requests by the total order (priority ascending, then arrival time) and
serves the winner's direction pair, the loser remaining queued — so the
overall service order is the order-respecting merge of the two queues; in
particular with `A{priority 1, pair [1,2]}` and `B{priority 2, pair [3,4]}`
both pending, `A` is served first and `B` afterwards. -/
theorem vip_drain_deadlock_order :
    (∀ ack st, (process_vip_requests ack st).1.q12 = []
        ∧ (process_vip_requests ack st).1.q34 = [])
    ∧ (∀ ack st, (process_vip_requests ack st).2 = List.merge st.q12 st.q34 VIPRequest.ltb)
    ∧ (∀ ack s,
        (process_vip_requests ack
            ⟨[⟨"A", 1, 0, .p12⟩], [⟨"B", 2, 0, .p34⟩], s⟩).2
          = [⟨"A", 1, 0, .p12⟩, ⟨"B", 2, 0, .p34⟩]) := by
  refine ⟨fun ack st => process_vip_go_queues_empty ack st.q12 st.q34 st.sig,
          fun ack st => process_vip_go_served_merge ack st.q12 st.q34 st.sig, fun ack s => ?_⟩
  rw [show (process_vip_requests ack
        ⟨[⟨"A", 1, 0, .p12⟩], [⟨"B", 2, 0, .p34⟩], s⟩).2
      = List.merge [⟨"A", 1, 0, .p12⟩] [⟨"B", 2, 0, .p34⟩] VIPRequest.ltb from
      process_vip_go_served_merge ack _ _ s]
  simp [List.merge, VIPRequest.ltb]

/-- C2: `VIPRequest.__lt__` orders by priority ascending (lower number
first), ties broken by earlier arrival time, and after the insertion step of
`vip_arrival` the target queue is sorted by this order while the other queue
is untouched (hence still sorted if it was). -/
theorem vip_order_total_and_queues_sorted :
    (∀ a b : VIPRequest, a.priority < b.priority → VIPRequest.ltb a b = true)
    ∧ (∀ a b : VIPRequest, a.priority = b.priority → a.arrival_time < b.arrival_time →
        VIPRequest.ltb a b = true)
    ∧ (∀ req st,
        (queueOf req.target_pair (vip_register req st)).Pairwise (fun x y => vipLe x y = true))
    ∧ (∀ req st,
        queueOf req.target_pair.other (vip_register req st) = queueOf req.target_pair.other st)
    ∧ (∀ req st, st.q12.Pairwise (fun x y => vipLe x y = true) →
        st.q34.Pairwise (fun x y => vipLe x y = true) →
        (vip_register req st).q12.Pairwise (fun x y => vipLe x y = true)
          ∧ (vip_register req st).q34.Pairwise (fun x y => vipLe x y = true)) := by
  have hsorted : ∀ l : List VIPRequest,
      (List.mergeSort l vipLe).Pairwise (fun x y => vipLe x y = true) :=
    fun l => List.sorted_mergeSort vipLe_trans vipLe_total l
  refine ⟨fun a b h => ?_, fun a b he ht => ?_, fun req st => ?_, fun req st => ?_,
          fun req st h12 h34 => ?_⟩
  · rw [vipLtb_iff]; exact Or.inl h
  · rw [vipLtb_iff]; exact Or.inr ⟨he, ht⟩
  · cases hp : req.target_pair <;>
      simp [vip_register, queueOf, hp] <;> exact hsorted _
  · cases hp : req.target_pair <;> simp [vip_register, queueOf, hp, Pair.other]
  · cases hp : req.target_pair <;> simp [vip_register, hp] <;>
      exact ⟨by first | exact hsorted _ | assumption, by first | exact hsorted _ | assumption⟩

/-- Closed witness for the ordering and sortedness facts of C2. -/
theorem vip_order_total_and_queues_sorted_witness :
    VIPRequest.ltb ⟨"a", 1, 5, .p12⟩ ⟨"b", 2, 3, .p34⟩ = true
    ∧ VIPRequest.ltb ⟨"a", 1, 3, .p12⟩ ⟨"c", 1, 5, .p12⟩ = true
    ∧ ((vip_register ⟨"d", 1, 4, .p12⟩
          ⟨[⟨"a", 2, 1, .p12⟩], [⟨"b", 1, 1, .p34⟩], initial_signal_status⟩).q12.Pairwise
            (fun x y => vipLe x y = true)
        ∧ (vip_register ⟨"d", 1, 4, .p12⟩
          ⟨[⟨"a", 2, 1, .p12⟩], [⟨"b", 1, 1, .p34⟩], initial_signal_status⟩).q34.Pairwise
            (fun x y => vipLe x y = true)) :=
  ⟨vip_order_total_and_queues_sorted.1 _ _ (by norm_num),
   vip_order_total_and_queues_sorted.2.1 _ _ rfl (by norm_num),
   vip_order_total_and_queues_sorted.2.2.2.2 ⟨"d", 1, 4, .p12⟩
     ⟨[⟨"a", 2, 1, .p12⟩], [⟨"b", 1, 1, .p34⟩], initial_signal_status⟩
     (by simp) (by simp)⟩

theorem collect_snd (l : List (String × Option ℚ)) :
    (l.filterMap (fun nr => nr.2.map (fun v => (nr.1, v)))).map Prod.snd
      = l.filterMap Prod.snd := by
  induction l with
  | nil => simp
  | cons hd tl ih => cases h : hd.2 <;> simp [List.filterMap_cons, h, ih]

theorem collect_length (l : List (String × Option ℚ)) :
    (berkeley_collect l).length = 1 + (l.filterMap Prod.snd).length := by
  have h := congrArg List.length (collect_snd l)
  simp only [List.length_map] at h
  simp [berkeley_collect, h]
  omega

/-- C3: the normal-traffic path checks the VIP queues and drains all pending
VIP work before its own pedestrian vote and transition: the state
`signal_controller` performs its transition in has both VIP queues empty, the
state it returns always has both VIP queues empty, on grant the transition is
applied to the drained state, and on denial the drained state is returned
unchanged with `false`. -/
theorem normal_traffic_drains_vips_first :
    (∀ ack st, (normal_pre ack st).q12 = [] ∧ (normal_pre ack st).q34 = [])
    ∧ (∀ ack grant target st, (signal_controller ack grant target st).1.q12 = []
        ∧ (signal_controller ack grant target st).1.q34 = [])
    ∧ (∀ ack target st,
        (signal_controller ack true target st).1.sig = switch_to target (normal_pre ack st).sig)
    ∧ (∀ ack target st, signal_controller ack false target st = (normal_pre ack st, false)) := by
  have hpre : ∀ ack st, (normal_pre ack st).q12 = [] ∧ (normal_pre ack st).q34 = [] := by
    intro ack st
    by_cases h : st.q12.length + st.q34.length > 0
    · simpa [normal_pre, h] using
        process_vip_go_queues_empty ack st.q12 st.q34 st.sig
    · have h12 : st.q12 = [] := List.eq_nil_of_length_eq_zero (by omega)
      have h34 : st.q34 = [] := List.eq_nil_of_length_eq_zero (by omega)
      simp [normal_pre, h, h12, h34]
  refine ⟨hpre, fun ack grant target st => ?_, fun ack target st => rfl,
          fun ack target st => rfl⟩
  cases grant <;> simpa [signal_controller] using hpre ack st

/-- C4: in a Berkeley cycle the collected offset set is exactly the
coordinator's zero plus one offset per responding peer (a failed peer never
appears), the skew update adds precisely the arithmetic mean `sum/len` of the
collected offsets, and a cycle with no responding peer leaves the accumulated
skew unchanged (in both `trial_controller.py` and `controller.py` variants). -/
theorem berkeley_mean_over_responders :
    (∀ (responses : List (String × Option ℚ)) (n : String) (v : ℚ),
        (n, v) ∈ berkeley_collect responses ↔
          (n = "controller" ∧ v = 0) ∨ (n, some v) ∈ responses)
    ∧ (∀ responses : List (String × Option ℚ),
        (berkeley_collect responses).map Prod.snd = 0 :: responses.filterMap Prod.snd)
    ∧ (∀ (responses : List (String × Option ℚ)) (t s : ℚ),
        responses.filterMap Prod.snd ≠ [] →
        (berkeley_cycle_once responses t s).1
          = s + ((berkeley_collect responses).map Prod.snd).sum
              / ((berkeley_collect responses).length : ℚ))
    ∧ (∀ (responses : List (String × Option ℚ)) (t s : ℚ),
        responses.filterMap Prod.snd = [] →
        (berkeley_cycle_once responses t s).1 = s
          ∧ (berkeley_cycle_once_v0 responses t s).1 = s)
    ∧ (∀ (responses : List (String × Option ℚ)) (t s : ℚ),
        (berkeley_cycle_once_v0 responses t s).1
          = s + ((berkeley_collect responses).map Prod.snd).sum
              / ((berkeley_collect responses).length : ℚ)) := by
  refine ⟨fun responses n v => ?_, fun responses => ?_, fun responses t s h => ?_,
          fun responses t s h => ?_, fun responses t s => ?_⟩
  · simp only [berkeley_collect, List.mem_cons, List.mem_filterMap, Prod.mk.injEq]
    constructor
    · rintro (⟨h1, h2⟩ | ⟨⟨a1, a2⟩, hmem, hmap⟩)
      · exact Or.inl ⟨h1, h2⟩
      · cases a2 with
        | none => simp at hmap
        | some w =>
          simp only [Option.map_some', Option.some.injEq, Prod.mk.injEq] at hmap
          obtain ⟨h1, h2⟩ := hmap
          subst h1; subst h2
          exact Or.inr hmem
    · rintro (⟨h1, h2⟩ | hmem)
      · exact Or.inl ⟨h1, h2⟩
      · exact Or.inr ⟨(n, some v), hmem, by simp⟩
  · simpa [berkeley_collect] using collect_snd responses
  · have hlen : ¬((berkeley_collect responses).length ≤ 1) := by
      rw [collect_length]
      have : responses.filterMap Prod.snd ≠ [] := h
      have : 0 < (responses.filterMap Prod.snd).length := List.length_pos.mpr this
      omega
    simp only [berkeley_cycle_once, hlen, if_false]
    ring
  · have hlen : (berkeley_collect responses).length ≤ 1 := by
      rw [collect_length, h]; simp
    have hfm : responses.filterMap (fun nr => nr.2.map (fun v => (nr.1, v))) = [] := by
      have hl := congrArg List.length (collect_snd responses)
      simp only [List.length_map, h, List.length_nil] at hl
      exact List.eq_nil_of_length_eq_zero hl
    constructor
    · simp [berkeley_cycle_once, hlen]
    · have hc0 : berkeley_collect responses = [("controller", 0)] := by
        simp [berkeley_collect, hfm]
      simp [berkeley_cycle_once_v0, hc0]
  · have hlen : ¬((berkeley_collect responses).length = 0) := by
      rw [collect_length]; omega
    simp only [berkeley_cycle_once_v0, hlen, if_false]
    ring

/-- Closed witness for C4: with one responding peer at offset `2` and one
failed peer, the skew moves by the mean of `{0, 2}`, i.e. by `1`. -/
theorem berkeley_mean_over_responders_witness :
    (berkeley_cycle_once [("t_signal", some (2 : ℚ)), ("p_signal", none)] 100 0).1 = 1 := by
  have h := berkeley_mean_over_responders.2.2.1
    [("t_signal", some (2 : ℚ)), ("p_signal", none)] 100 0 (by simp)
  rw [h]
  simp [berkeley_collect, List.filterMap_cons]

/-- C5: `_switch_to` always terminates in the invariant state
`GREEN(target)/RED(complement)` with complementary pedestrian states; calling
`signal_controller([1,2])` when `[1,2]` is already green converges to that
same state; the target (already green) pair's vehicle signals are only ever
written `GREEN`, never a repeated yellow/red cycle, and the yellow/red writes
of the traffic phase touch only the complementary pair. -/
theorem signal_transition_invariant_idempotent :
    (∀ target st, switch_to target st = green_state target)
    ∧ (∀ ack, signal_controller ack true .p12 ⟨[], [], green_state .p12⟩
        = (⟨[], [], green_state .p12⟩, true))
    ∧ (∀ target, ∀ w : SigId × Status, w ∈ switch_to_writes target →
        w.1 ∈ target.vehicles → w.2 = Status.green)
    ∧ (∀ target, ∀ w : SigId × Status, w ∈ handle_traffic_writes target →
        (w.2 = Status.yellow ∨ w.2 = Status.red) → w.1 ∈ Pair.vehicles target.other) := by
  refine ⟨fun target st => ?_, fun ack => rfl, fun target => ?_, fun target => ?_⟩
  · cases target <;> cases st <;> rfl
  · cases target <;> decide
  · cases target <;> decide

/-- Closed witness for C5's trace facts at a concrete write. -/
theorem signal_transition_invariant_idempotent_witness :
    ((SigId.s1, Status.green) ∈ switch_to_writes .p12 ∧ SigId.s1 ∈ Pair.vehicles .p12
      ∧ (SigId.s1, Status.green).2 = Status.green)
    ∧ ((SigId.s3, Status.yellow) ∈ handle_traffic_writes .p12
      ∧ SigId.s3 ∈ Pair.vehicles (Pair.other .p12)) :=
  ⟨⟨by decide, by decide,
    signal_transition_invariant_idempotent.2.2.1 .p12 (.s1, .green) (by decide) (by decide)⟩,
   ⟨by decide,
    signal_transition_invariant_idempotent.2.2.2 .p12 (.s3, .yellow) (by decide) (Or.inl rfl)⟩⟩

/-- C8: when the pedestrian vote for a VIP serve attempt is denied, the
popped request is dropped: the signal table is untouched, the request is not
re-queued (its queue is exactly the former tail) and the other queue is
unchanged. -/
theorem vip_denied_request_dropped :
    ∀ (ack : Pair → Bool) (pair : Pair) (st : CtrlState) (v : VIPRequest)
      (rest : List VIPRequest),
      queueOf pair st = v :: rest → ack pair = false →
      (serve_next_vip ack pair st).sig = st.sig
      ∧ queueOf pair (serve_next_vip ack pair st) = rest
      ∧ queueOf pair.other (serve_next_vip ack pair st) = queueOf pair.other st := by
  intro ack pair st v rest hq hack
  cases pair <;> simp only [queueOf] at hq <;>
    simp [serve_next_vip, hq, servePopped, hack, queueOf, Pair.other]

/-- Closed witness for C8: a denied head VIP for `[1,2]` is dropped while the
`[3,4]` queue and the signals survive unchanged. -/
theorem vip_denied_request_dropped_witness :
    (queueOf .p12 ⟨[⟨"A", 1, 0, .p12⟩], [⟨"B", 2, 0, .p34⟩], initial_signal_status⟩
        = [⟨"A", 1, 0, .p12⟩])
    ∧ ((serve_next_vip (fun _ => false) .p12
          ⟨[⟨"A", 1, 0, .p12⟩], [⟨"B", 2, 0, .p34⟩], initial_signal_status⟩).sig
        = initial_signal_status
      ∧ queueOf .p12 (serve_next_vip (fun _ => false) .p12
          ⟨[⟨"A", 1, 0, .p12⟩], [⟨"B", 2, 0, .p34⟩], initial_signal_status⟩) = []
      ∧ queueOf (Pair.other .p12) (serve_next_vip (fun _ => false) .p12
          ⟨[⟨"A", 1, 0, .p12⟩], [⟨"B", 2, 0, .p34⟩], initial_signal_status⟩)
        = queueOf (Pair.other .p12)
            ⟨[⟨"A", 1, 0, .p12⟩], [⟨"B", 2, 0, .p34⟩], initial_signal_status⟩) :=
  ⟨rfl, vip_denied_request_dropped (fun _ => false) .p12
    ⟨[⟨"A", 1, 0, .p12⟩], [⟨"B", 2, 0, .p34⟩], initial_signal_status⟩
    ⟨"A", 1, 0, .p12⟩ [] rfl rfl⟩

/-- C9 counterexample: `vip_arrival` returns `True` even when every
pedestrian vote is denied, so a denied VIP transition is not surfaced as a
boolean failure to the VIP caller. -/
theorem vip_arrival_true_on_denial_cex :
    (vip_arrival (fun _ => false) .p12 1 0 "A" ⟨[], [], initial_signal_status⟩).2 = true :=
  rfl

/-- C9 (amended): `signal_controller` surfaces a pedestrian denial as the
boolean result `False`; `vip_arrival` returns `True` unconditionally, so a
VIP dropped on denial during the drain is not surfaced to its caller. -/
theorem denial_surfacing_amended :
    (∀ ack target st, signal_controller ack false target st = (normal_pre ack st, false))
    ∧ (∀ ack target priority arrivalTime vehicleId st,
        (vip_arrival ack target priority arrivalTime vehicleId st).2 = true) :=
  ⟨fun _ _ _ => rfl, fun _ _ _ _ _ _ => rfl⟩

theorem foldl_min_mem (k : α → Nat) (xs : List α) :
    ∀ acc : α, xs.foldl (fun best y => if k y < k best then y else best) acc ∈ acc :: xs := by
  induction xs with
  | nil => intro acc; simp
  | cons x xs ih =>
    intro acc
    simp only [List.foldl_cons]
    by_cases hx : k x < k acc
    · rw [if_pos hx]
      have h := ih x
      simp only [List.mem_cons] at h ⊢
      tauto
    · rw [if_neg hx]
      have h := ih acc
      simp only [List.mem_cons] at h ⊢
      tauto

theorem foldl_min_le (k : α → Nat) (xs : List α) :
    ∀ acc : α, ∀ y ∈ acc :: xs,
      k (xs.foldl (fun best y => if k y < k best then y else best) acc) ≤ k y := by
  induction xs with
  | nil =>
    intro acc y hy
    simp only [List.mem_cons, List.not_mem_nil, or_false] at hy
    subst hy
    simp
  | cons x xs ih =>
    intro acc y hy
    simp only [List.mem_cons] at hy
    simp only [List.foldl_cons]
    by_cases hx : k x < k acc
    · rw [if_pos hx]
      rcases hy with hy | hy | hy
      · subst hy
        exact le_of_lt (lt_of_le_of_lt (ih x x (by simp)) hx)
      · subst hy
        exact ih y y (by simp)
      · exact ih x y (by simp [hy])
    · rw [if_neg hx]
      rcases hy with hy | hy | hy
      · subst hy
        exact ih y y (by simp)
      · subst hy
        exact le_trans (ih acc acc (by simp)) (not_lt.mp hx)
      · exact ih acc y (by simp [hy])

theorem minBy_spec (k : α → Nat) (l : List α) (c : α) (h : minBy k l = some c) :
    c ∈ l ∧ ∀ y ∈ l, k c ≤ k y := by
  cases l with
  | nil => simp [minBy] at h
  | cons x xs =>
    simp only [minBy, Option.some.injEq] at h
    subst h
    exact ⟨foldl_min_mem k xs x, foldl_min_le k xs x⟩

theorem minBy_isSome (k : α → Nat) (l : List α) (h : l ≠ []) : (minBy k l).isSome := by
  cases l with
  | nil => exact absurd rfl h
  | cons x xs => simp [minBy]

theorem tier1_sel (ctrls : List ControllerState) (n : Nat) (sp : Bool)
    (res : ControllerState × List ControllerState × Nat)
    (hres : get_available_controller ctrls n sp = some res)
    (hex : ∃ c ∈ ctrls, c.is_free = true ∧ c.active_requests.length = 0) :
    res.1 ∈ ctrls ∧ res.1.is_free = true ∧ res.1.active_requests.length = 0
      ∧ ∀ d ∈ ctrls, d.is_free = true → d.active_requests.length = 0 →
          res.1.total_processed ≤ d.total_processed := by
  obtain ⟨c, hc, hfree, hlen⟩ := hex
  have hcin : c ∈ ctrls.filter (fun c => c.is_free && decide (c.active_requests.length = 0)) :=
    List.mem_filter.mpr ⟨hc, by simp [hfree, hlen]⟩
  obtain ⟨m, hm⟩ := Option.isSome_iff_exists.mp
    (minBy_isSome (fun c => c.total_processed) _ (List.ne_nil_of_mem hcin))
  simp only [get_available_controller, hm, Option.some.injEq] at hres
  subst hres
  obtain ⟨hmem, hmin⟩ := minBy_spec _ _ _ hm
  obtain ⟨hmem', hpred⟩ := List.mem_filter.mp hmem
  simp only [Bool.and_eq_true, decide_eq_true_eq] at hpred
  exact ⟨hmem', hpred.1, hpred.2, fun d hd hdf hdl =>
    hmin d (List.mem_filter.mpr ⟨hd, by simp [hdf, hdl]⟩)⟩

theorem tier2_sel (ctrls : List ControllerState) (n : Nat) (sp : Bool)
    (res : ControllerState × List ControllerState × Nat)
    (hres : get_available_controller ctrls n sp = some res)
    (hnone : ∀ c ∈ ctrls, ¬(c.is_free = true ∧ c.active_requests.length = 0))
    (hex : ∃ c ∈ ctrls, c.is_free = true) :
    res.1 ∈ ctrls ∧ res.1.is_free = true
      ∧ ∀ d ∈ ctrls, d.is_free = true →
          res.1.active_requests.length ≤ d.active_requests.length := by
  have hfil : ctrls.filter (fun c => c.is_free && decide (c.active_requests.length = 0)) = [] := by
    rw [List.filter_eq_nil_iff]
    intro a ha
    simp only [Bool.and_eq_true, decide_eq_true_eq]
    exact fun hb => hnone a ha ⟨hb.1, hb.2⟩
  obtain ⟨c, hc, hcf⟩ := hex
  have hcin : c ∈ ctrls.filter (fun c => c.is_free) := List.mem_filter.mpr ⟨hc, hcf⟩
  obtain ⟨m, hm⟩ := Option.isSome_iff_exists.mp
    (minBy_isSome (fun c => c.active_requests.length) _ (List.ne_nil_of_mem hcin))
  have hnil : minBy (fun c : ControllerState => c.total_processed) [] = none := rfl
  simp only [get_available_controller, hfil, hnil, hm, Option.some.injEq] at hres
  subst hres
  obtain ⟨hmem, hmin⟩ := minBy_spec _ _ _ hm
  obtain ⟨hmem', hpred⟩ := List.mem_filter.mp hmem
  exact ⟨hmem', hpred, fun d hd hdf => hmin d (List.mem_filter.mpr ⟨hd, hdf⟩)⟩

theorem tier3_sel (ctrls : List ControllerState) (n : Nat) (sp : Bool)
    (hall : ∀ c ∈ ctrls, c.is_free = false) (hn : n < MAX_DYNAMIC_CLONES) (hsp : sp = true) :
    ∃ nc n1, create_dynamic_clone n sp = some (nc, n1)
      ∧ get_available_controller ctrls n sp = some (nc, ctrls ++ [nc], n1)
      ∧ nc.is_dynamic = true ∧ nc.is_available = true ∧ n1 = n + 1 := by
  subst hsp
  have hfil0 : ctrls.filter (fun c => c.is_free && decide (c.active_requests.length = 0)) = [] := by
    rw [List.filter_eq_nil_iff]
    intro a ha
    simp [hall a ha]
  have hfil1 : ctrls.filter (fun c => c.is_free) = [] := by
    rw [List.filter_eq_nil_iff]
    intro a ha
    simp [hall a ha]
  have hcr : create_dynamic_clone n true
      = some (⟨"dynamic_clone_" ++ toString (n + 1),
          "http://localhost:" ++ toString (8002 + n + 1), [], true, 0, true⟩, n + 1) := by
    simp [create_dynamic_clone, Nat.not_le.mpr hn]
  have hnil0 : minBy (fun c : ControllerState => c.total_processed) [] = none := rfl
  have hnil1 : minBy (fun c : ControllerState => c.active_requests.length) [] = none := rfl
  refine ⟨_, _, hcr, ?_, rfl, rfl, rfl⟩
  simp only [get_available_controller, hfil0, hfil1, hnil0, hnil1, hcr]

theorem tier4_sel (ctrls : List ControllerState) (n : Nat) (sp : Bool)
    (res : ControllerState × List ControllerState × Nat)
    (hall : ∀ c ∈ ctrls, c.is_free = false) (hmax : MAX_DYNAMIC_CLONES ≤ n)
    (hres : get_available_controller ctrls n sp = some res) :
    res.1 ∈ ctrls ∧ res.2.1 = ctrls ∧ res.2.2 = n
      ∧ ∀ d ∈ ctrls, res.1.active_requests.length ≤ d.active_requests.length := by
  have hfil0 : ctrls.filter (fun c => c.is_free && decide (c.active_requests.length = 0)) = [] := by
    rw [List.filter_eq_nil_iff]
    intro a ha
    simp [hall a ha]
  have hfil1 : ctrls.filter (fun c => c.is_free) = [] := by
    rw [List.filter_eq_nil_iff]
    intro a ha
    simp [hall a ha]
  have hcr : create_dynamic_clone n sp = none := by
    simp [create_dynamic_clone, hmax]
  have hnil0 : minBy (fun c : ControllerState => c.total_processed) [] = none := rfl
  have hnil1 : minBy (fun c : ControllerState => c.active_requests.length) [] = none := rfl
  simp only [get_available_controller, hfil0, hfil1, hnil0, hnil1, hcr,
    Option.map_eq_some'] at hres
  obtain ⟨m, hm, hmap⟩ := hres
  subst hmap
  obtain ⟨hmem, hmin⟩ := minBy_spec _ _ _ hm
  exact ⟨hmem, rfl, rfl, hmin⟩

theorem is_available_of_is_free (c : ControllerState) (h : c.is_free = true) :
    c.is_available = true := by
  simp only [ControllerState.is_free, Bool.and_eq_true] at h
  exact h.2

/-- C6: the router's four selection tiers in order — free instances by
fewest lifetime-processed, then buffered available instances by least load,
then dynamic-clone provisioning bounded by `MAX_DYNAMIC_CLONES`, then the
least-loaded instance regardless of saturation — and with in-flight counts
`[0,1,2]` the next request routes to the count-0 instance. -/
theorem router_tiered_selection :
    (∀ (ctrls : List ControllerState) (n : Nat) (sp : Bool) res,
        get_available_controller ctrls n sp = some res →
        (∃ c ∈ ctrls, c.is_free = true ∧ c.active_requests.length = 0) →
        res.1 ∈ ctrls ∧ res.1.is_free = true ∧ res.1.active_requests.length = 0
          ∧ ∀ d ∈ ctrls, d.is_free = true → d.active_requests.length = 0 →
              res.1.total_processed ≤ d.total_processed)
    ∧ (∀ (ctrls : List ControllerState) (n : Nat) (sp : Bool) res,
        get_available_controller ctrls n sp = some res →
        (∀ c ∈ ctrls, ¬(c.is_free = true ∧ c.active_requests.length = 0)) →
        (∃ c ∈ ctrls, c.is_free = true) →
        res.1 ∈ ctrls ∧ res.1.is_free = true
          ∧ ∀ d ∈ ctrls, d.is_free = true →
              res.1.active_requests.length ≤ d.active_requests.length)
    ∧ (∀ (ctrls : List ControllerState) (n : Nat) (sp : Bool),
        (∀ c ∈ ctrls, c.is_free = false) → n < MAX_DYNAMIC_CLONES → sp = true →
        ∃ nc n1, create_dynamic_clone n sp = some (nc, n1)
          ∧ get_available_controller ctrls n sp = some (nc, ctrls ++ [nc], n1)
          ∧ nc.is_dynamic = true ∧ nc.is_available = true ∧ n1 = n + 1)
    ∧ (∀ (ctrls : List ControllerState) (n : Nat) (sp : Bool) res,
        (∀ c ∈ ctrls, c.is_free = false) → MAX_DYNAMIC_CLONES ≤ n →
        get_available_controller ctrls n sp = some res →
        res.1 ∈ ctrls ∧ res.2.1 = ctrls ∧ res.2.2 = n
          ∧ ∀ d ∈ ctrls, res.1.active_requests.length ≤ d.active_requests.length)
    ∧ (get_available_controller
        [⟨"A", "uA", [], true, 7, false⟩, ⟨"B", "uB", ["r1"], true, 0, false⟩,
          ⟨"C", "uC", ["r2", "r3"], true, 0, false⟩] 0 true
        = some (⟨"A", "uA", [], true, 7, false⟩,
            [⟨"A", "uA", [], true, 7, false⟩, ⟨"B", "uB", ["r1"], true, 0, false⟩,
              ⟨"C", "uC", ["r2", "r3"], true, 0, false⟩], 0)) :=
  ⟨tier1_sel, tier2_sel, tier3_sel, tier4_sel, by decide⟩

/-- Closed witness for C6: three available instances with loads `0`, `1`,
`2` put the load-0 instance in the first tier, and the selection picks it. -/
theorem router_tiered_selection_witness :
    (∃ c ∈ [(⟨"A", "uA", [], true, 7, false⟩ : ControllerState),
        ⟨"B", "uB", ["r1"], true, 0, false⟩, ⟨"C", "uC", ["r2", "r3"], true, 0, false⟩],
      c.is_free = true ∧ c.active_requests.length = 0)
    ∧ ((⟨"A", "uA", [], true, 7, false⟩ : ControllerState)
        ∈ [(⟨"A", "uA", [], true, 7, false⟩ : ControllerState),
            ⟨"B", "uB", ["r1"], true, 0, false⟩, ⟨"C", "uC", ["r2", "r3"], true, 0, false⟩]) :=
  ⟨⟨⟨"A", "uA", [], true, 7, false⟩, by decide, by decide, by decide⟩,
    (router_tiered_selection.1
      [⟨"A", "uA", [], true, 7, false⟩, ⟨"B", "uB", ["r1"], true, 0, false⟩,
        ⟨"C", "uC", ["r2", "r3"], true, 0, false⟩] 0 true
      (⟨"A", "uA", [], true, 7, false⟩,
        [⟨"A", "uA", [], true, 7, false⟩, ⟨"B", "uB", ["r1"], true, 0, false⟩,
          ⟨"C", "uC", ["r2", "r3"], true, 0, false⟩], 0)
      (by decide)
      ⟨⟨"A", "uA", [], true, 7, false⟩, by decide, by decide, by decide⟩).1⟩

theorem tier4_eq (ctrls : List ControllerState) (n : Nat) (sp : Bool)
    (hall : ∀ c ∈ ctrls, c.is_free = false) (hmax : MAX_DYNAMIC_CLONES ≤ n) :
    get_available_controller ctrls n sp
      = (minBy (fun c => c.active_requests.length) ctrls).map (fun c => (c, ctrls, n)) := by
  have hfil0 : ctrls.filter (fun c => c.is_free && decide (c.active_requests.length = 0)) = [] := by
    rw [List.filter_eq_nil_iff]
    intro a ha
    simp [hall a ha]
  have hfil1 : ctrls.filter (fun c => c.is_free) = [] := by
    rw [List.filter_eq_nil_iff]
    intro a ha
    simp [hall a ha]
  have hcr : create_dynamic_clone n sp = none := by
    simp [create_dynamic_clone, hmax]
  have hnil0 : minBy (fun c : ControllerState => c.total_processed) [] = none := rfl
  have hnil1 : minBy (fun c : ControllerState => c.active_requests.length) [] = none := rfl
  simp only [get_available_controller, hfil0, hfil1, hnil0, hnil1, hcr]

/-- C7 counterexample: with both instances already marked unavailable and the
dynamic-clone limit reached (the state `forward_request` reaches once every
backend has failed), the selection fallback re-selects an instance that is
already marked unavailable — the failed instance is not excluded — and a
bounded retry run returns failure only by exhausting its recursion bound. -/
theorem router_reselects_unavailable_cex :
    ((get_available_controller
        [⟨"controller", "http://localhost:8000", [], false, 0, false⟩,
          ⟨"controller_clone", "http://localhost:8001", [], false, 0, false⟩] 3 true).map
        (fun r => (r.1.name, r.1.is_available)) = some ("controller", false))
    ∧ (forward_request (fun _ => false) true (fun _ => "rid") 5
        ⟨[⟨"controller", "http://localhost:8000", [], false, 0, false⟩,
          ⟨"controller_clone", "http://localhost:8001", [], false, 0, false⟩], 3⟩).2
      = false := by
  constructor
  · rfl
  · rfl

/-- C7 (amended): on forwarding failure the instance is marked unavailable
and its claimed slot released before retrying from the first tier; the free
and buffered tiers only ever select an available instance; but the degraded
fallback tier ignores availability, so when every instance is down and the
clone limit is reached no retry succeeds and the call returns failure only
when the retry bound (the recursion limit, modelled as fuel) runs out. -/
theorem router_retry_amended :
    (∀ (ctrls : List ControllerState) (n : Nat) (sp : Bool) res,
        (∃ d ∈ ctrls, d.is_free = true) →
        get_available_controller ctrls n sp = some res →
        res.1.is_available = true)
    ∧ (∀ (rid : String) (c : ControllerState),
        (fail_update rid c).is_available = false
          ∧ (fail_update rid c).active_requests = (c.complete_request rid).active_requests)
    ∧ (∀ (fuel : Nat) (sp : Bool) (ridOf : Nat → String) (st : LBState),
        st.controllers ≠ [] →
        (∀ c ∈ st.controllers, c.is_available = false) →
        MAX_DYNAMIC_CLONES ≤ st.numClones →
        (forward_request (fun _ => false) sp ridOf fuel st).2 = false) := by
  refine ⟨fun ctrls n sp res hex hres => ?_, fun rid c => ⟨rfl, rfl⟩, fun fuel => ?_⟩
  · by_cases hzero : ∃ c ∈ ctrls, c.is_free = true ∧ c.active_requests.length = 0
    · exact is_available_of_is_free _ (tier1_sel ctrls n sp res hres hzero).2.1
    · push_neg at hzero
      exact is_available_of_is_free _
        (tier2_sel ctrls n sp res hres (fun c hc hcc => hzero c hc hcc.1 hcc.2) hex).2.1
  · induction fuel with
    | zero => intro sp ridOf st hne hdown hmax; rfl
    | succ fuel ih =>
      intro sp ridOf st hne hdown hmax
      have hall : ∀ c ∈ st.controllers, c.is_free = false := fun c hc => by
        simp [ControllerState.is_free, hdown c hc]
      obtain ⟨m, hm⟩ := Option.isSome_iff_exists.mp
        (minBy_isSome (fun c : ControllerState => c.active_requests.length) _ hne)
      have hget : get_available_controller st.controllers st.numClones sp
          = some (m, st.controllers, st.numClones) := by
        rw [tier4_eq st.controllers st.numClones sp hall hmax, hm]
        rfl
      rw [forward_request, hget]
      simp only [Bool.false_eq_true, if_false]
      apply ih
      · simp only [update_ctrl, ne_eq, List.map_eq_nil_iff]
        exact hne
      · intro c hc
        simp only [update_ctrl, List.mem_map] at hc
        obtain ⟨d, hd, rfl⟩ := hc
        obtain ⟨e, he, rfl⟩ := hd
        have hname : ∀ (r : String) (x : ControllerState),
            (ControllerState.add_request r x).name = x.name := by
          intro r x
          unfold ControllerState.add_request
          split <;> rfl
        by_cases hem : e.name = m.name
        · simp [hname, hem, fail_update]
        · simp only [hem, if_false]
          exact hdown e he
      · exact hmax

/-- Closed witness for C7's amended statement: a free instance makes the
selection pick an available one, and from the all-down, clones-maxed state
the bounded retry returns failure. -/
theorem router_retry_amended_witness :
    ((⟨"B", "uB", ["r1"], true, 0, false⟩ : ControllerState),
        [(⟨"B", "uB", ["r1"], true, 0, false⟩ : ControllerState)], (0 : Nat)).1.is_available = true
    ∧ (forward_request (fun _ => false) true (fun _ => "r") 2
        ⟨[⟨"controller", "http://localhost:8000", [], false, 0, false⟩,
          ⟨"controller_clone", "http://localhost:8001", [], false, 0, false⟩], 3⟩).2 = false :=
  ⟨router_retry_amended.1 [⟨"B", "uB", ["r1"], true, 0, false⟩] 0 true
      (⟨"B", "uB", ["r1"], true, 0, false⟩, [⟨"B", "uB", ["r1"], true, 0, false⟩], 0)
      ⟨⟨"B", "uB", ["r1"], true, 0, false⟩, by decide, by decide⟩ (by decide),
   router_retry_amended.2.2 2 true (fun _ => "r")
      ⟨[⟨"controller", "http://localhost:8000", [], false, 0, false⟩,
        ⟨"controller_clone", "http://localhost:8001", [], false, 0, false⟩], 3⟩
      (by decide) (by decide) (by decide)⟩

/-- C10: the in-flight deque never exceeds `BUFFER_SIZE` under any sequence
of `add_request`/`complete_request` operations; an `add_request` on a full
buffer silently evicts the oldest id instead of failing or growing; and a
`complete_request` for an id no longer in the buffer is a silent no-op. -/
theorem buffer_bounded_evicts_and_noop :
    (∀ c : ControllerState, c.active_requests.length ≤ BUFFER_SIZE →
        ∀ ops, (run_ops ops c).active_requests.length ≤ BUFFER_SIZE)
    ∧ (∀ (c : ControllerState) (rid : String), c.active_requests.length = BUFFER_SIZE →
        (c.add_request rid).active_requests = c.active_requests.drop 1 ++ [rid]
          ∧ (c.add_request rid).active_requests.length = BUFFER_SIZE)
    ∧ (∀ (c : ControllerState) (rid : String), rid ∉ c.active_requests →
        c.complete_request rid = c) := by
  have step : ∀ (op : BufferOp) (c : ControllerState),
      c.active_requests.length ≤ BUFFER_SIZE →
      (apply_op c op).active_requests.length ≤ BUFFER_SIZE := by
    intro op c hc
    cases op with
    | add rid =>
      simp only [apply_op, ControllerState.add_request]
      by_cases hlen : c.active_requests.length < BUFFER_SIZE
      · rw [if_pos hlen]
        dsimp only
        simp only [List.length_append, List.length_cons, List.length_nil]
        simp only [BUFFER_SIZE] at hc hlen ⊢
        omega
      · rw [if_neg hlen]
        dsimp only
        simp only [List.length_append, List.length_drop, List.length_cons, List.length_nil]
        simp only [BUFFER_SIZE] at hc hlen ⊢
        omega
    | complete rid =>
      simp only [apply_op, ControllerState.complete_request]
      by_cases hmem : rid ∈ c.active_requests
      · rw [if_pos hmem]
        dsimp only
        have := List.length_erase_le rid c.active_requests
        simp only [BUFFER_SIZE] at hc ⊢
        omega
      · rw [if_neg hmem]
        exact hc
  have inv : ∀ (ops : List BufferOp) (c : ControllerState),
      c.active_requests.length ≤ BUFFER_SIZE →
      (run_ops ops c).active_requests.length ≤ BUFFER_SIZE := by
    intro ops
    induction ops with
    | nil => intro c hc; exact hc
    | cons op ops ih => intro c hc; exact ih _ (step op c hc)
  refine ⟨fun c hc ops => inv ops c hc, fun c rid h => ?_, fun c rid h => ?_⟩
  · have hnot : ¬(c.active_requests.length < BUFFER_SIZE) := by omega
    constructor
    · simp only [ControllerState.add_request]
      rw [if_neg hnot]
    · simp only [ControllerState.add_request]
      rw [if_neg hnot]
      dsimp only
      simp only [List.length_append, List.length_drop, List.length_cons, List.length_nil]
      simp only [BUFFER_SIZE] at h ⊢
      omega
  · simp [ControllerState.complete_request, h]

/-- Closed witness for C10 at a full five-entry buffer. -/
theorem buffer_bounded_evicts_and_noop_witness :
    ((run_ops [.add "f", .complete "zz"]
        ⟨"X", "u", ["a", "b", "c", "d", "e"], true, 0, false⟩).active_requests.length
      ≤ BUFFER_SIZE)
    ∧ ((⟨"X", "u", ["a", "b", "c", "d", "e"], true, 0, false⟩ :
          ControllerState).add_request "f").active_requests
        = ["b", "c", "d", "e", "f"]
    ∧ (⟨"X", "u", ["a", "b", "c", "d", "e"], true, 0, false⟩ :
          ControllerState).complete_request "zz"
        = ⟨"X", "u", ["a", "b", "c", "d", "e"], true, 0, false⟩ :=
  ⟨buffer_bounded_evicts_and_noop.1 ⟨"X", "u", ["a", "b", "c", "d", "e"], true, 0, false⟩
      (by decide) [.add "f", .complete "zz"],
   by
    have h := buffer_bounded_evicts_and_noop.2.1
      ⟨"X", "u", ["a", "b", "c", "d", "e"], true, 0, false⟩ "f" (by decide)
    simpa using h.1,
   buffer_bounded_evicts_and_noop.2.2
      ⟨"X", "u", ["a", "b", "c", "d", "e"], true, 0, false⟩ "zz" (by decide)⟩

end SmartTraffic
